import Mathlib

/-
  Verification of the url_shorten service core (src/app.py).

  Strings are modelled as lists of characters.  Times are modelled as
  integers (seconds).  The sqlite table urls is modelled as a list of
  LinkRecord values; the PRIMARY KEY constraint is modelled by dbInsert
  failing (returning none, the IntegrityError) whenever the code is
  already present.
-/

namespace UrlApp

/-- Model of Python str.isspace: the exact character set on which the
Python predicate returns true (ASCII whitespace, the C0 field and record
separators, NEL, NBSP and the Unicode space characters). -/
def isPySpace (c : Char) : Bool :=
  (9 ≤ c.val && c.val ≤ 13) || c = ' ' ||
  (0x1c ≤ c.val && c.val ≤ 0x1f) || c.val = 0x85 || c.val = 0xa0 ||
  c.val = 0x1680 || (0x2000 ≤ c.val && c.val ≤ 0x200a) ||
  c.val = 0x2028 || c.val = 0x2029 || c.val = 0x202f ||
  c.val = 0x205f || c.val = 0x3000

/-- Model of Python str.strip with no argument: remove leading and
trailing whitespace characters. -/
def pyStrip (s : List Char) : List Char :=
  ((s.dropWhile isPySpace).reverse.dropWhile isPySpace).reverse

/-- Characters allowed inside a URL scheme by urllib.parse
(letters, digits, plus, minus, dot). -/
def isSchemeChar (c : Char) : Bool :=
  c.isAlphanum || c = '+' || c = '-' || c = '.'

/-- C0 control characters and space: the character class the newest
stdlib variant of urlsplit lstrips from the URL.  The older installed
variant strips nothing; the theorems below quantify only over inputs
whose stripped form does not start with such a character, on which the
two variants agree. -/
def isC0OrSpace (c : Char) : Bool := c.val ≤ 0x20

/-- The byte cleanup of urllib.parse.urlsplit: every tab, carriage
return and line feed is removed from the URL before splitting. -/
def removeUnsafeBytes (s : List Char) : List Char :=
  s.filter (fun c => !(c = '\t' || c = '\r' || c = '\n'))

/-- The two fields of the urllib.parse.urlsplit result that
normalize_url inspects. -/
structure ParseResult where
  scheme : List Char
  netloc : List Char
deriving DecidableEq

/-- Model of the scheme extraction of urllib.parse.urlsplit: if the text
before the first colon is non-empty, starts with an ASCII letter and
consists of scheme characters, it is the scheme (lower-cased) and the
remainder follows the colon; otherwise there is no scheme. -/
def splitScheme (s : List Char) : List Char × List Char :=
  match s.findIdx? (fun c => c = ':') with
  | none => ([], s)
  | some i =>
    let pre := s.take i
    if 0 < i && pre.all isSchemeChar &&
        (match pre with | [] => false | c :: _ => c.isAlpha) then
      (pre.map Char.toLower, s.drop (i + 1))
    else ([], s)

/-- Model of urllib.parse.urlsplit as the installed CPython 3.11 stdlib
defines it, restricted to the fields and errors normalize_url can
observe: remove the unsafe bytes, extract the scheme, and when the
remainder starts with two slashes take the netloc up to the next slash,
question mark or hash; a bracket appearing in the netloc without its
partner raises ValueError with the message Invalid IPv6 URL.  Two
library checks are beyond this embedding, and the theorems quantify
only over inputs on which they are provably inert: the NFKC-based
netloc rejection (the library returns at once when the netloc is
ASCII) and the bracketed-host validation of the newest variant (it
runs only when both brackets occur in the netloc). -/
def urlsplitE (s : List Char) : Except (List Char) ParseResult :=
  let url := removeUnsafeBytes s
  let sr := splitScheme url
  match sr.2 with
  | '/' :: '/' :: r =>
    let netloc := r.takeWhile (fun c => !(c = '/' || c = '?' || c = '#'))
    if ('[' ∈ netloc ∧ ']' ∉ netloc) ∨ (']' ∈ netloc ∧ '[' ∉ netloc) then
      Except.error "Invalid IPv6 URL".data
    else Except.ok ⟨sr.1, netloc⟩
  | _ => Except.ok ⟨sr.1, []⟩

/-- True when the string does not start with a C0 control or space:
on such strings the lstrip of the newest stdlib variant is a no-op. -/
def headNotC0 (s : List Char) : Bool :=
  match s with
  | [] => true
  | c :: _ => !isC0OrSpace c

/-- The input domain on which the installed stdlib variants of urlsplit
agree with urlsplitE: ASCII characters only (the NFKC netloc rejection
cannot fire), no closing bracket anywhere (the bracketed-host
validation cannot fire, while a lone opening bracket still raises
Invalid IPv6 URL in every variant), and no C0 control or space leading
the stripped string (the WHATWG lstrip of the newest variant is a
no-op). -/
def plainInput (u0 : List Char) : Bool :=
  u0.all (fun c => c.val ≤ 127) && !(u0.contains ']') && headNotC0 (pyStrip u0)

/-- MAX_URL_LEN from app.py. -/
def MAX_URL_LEN : Nat := 2048

/-- The ValueError conditions that escape normalize_url: the three it
raises itself, and splitError for a ValueError raised inside urlparse
(such as Invalid IPv6 URL) that propagates through it; create catches
every ValueError alike and returns its message. -/
inductive NormErr
  | unsupportedScheme
  | invalidHost
  | urlTooLong
  | splitError (m : List Char)
deriving DecidableEq

/-- The message string of each ValueError escaping normalize_url. -/
def errMsg : NormErr → List Char
  | NormErr.unsupportedScheme => "Only http/https URLs are supported.".data
  | NormErr.invalidHost => "Invalid URL host.".data
  | NormErr.urlTooLong => "URL is too long.".data
  | NormErr.splitError m => m

/-- The literal prefix prepended when the URL has no scheme. -/
def httpsScheme : List Char := "https://".data

deriving instance DecidableEq for Except

/-- The three checks normalize_url performs on the parse of the
(possibly prefixed) URL u: scheme restricted to http/https, a host must
be present, and the length must not exceed MAX_URL_LEN. -/
def normChecks (p : ParseResult) (u : List Char) : Except NormErr (List Char) :=
  if p.scheme = "http".data ∨ p.scheme = "https".data then
    if p.netloc = [] then Except.error NormErr.invalidHost
    else if MAX_URL_LEN < u.length then Except.error NormErr.urlTooLong
    else Except.ok u
  else Except.error NormErr.unsupportedScheme

/-- Model of normalize_url from app.py: strip whitespace; return the
empty string unchanged; parse (a ValueError from the parser
propagates); prepend https:// and re-parse when no scheme is present;
then apply the scheme, host and length checks, returning the (possibly
prefixed) stripped string on success. -/
def normalize_url (u0 : List Char) : Except NormErr (List Char) :=
  let u := pyStrip u0
  if u = [] then Except.ok u
  else
    match urlsplitE u with
    | Except.error m => Except.error (NormErr.splitError m)
    | Except.ok p0 =>
      if p0.scheme = [] then
        match urlsplitE (httpsScheme ++ u) with
        | Except.error m => Except.error (NormErr.splitError m)
        | Except.ok p => normChecks p (httpsScheme ++ u)
      else normChecks p0 u

example : normalize_url "example.com/x".data = Except.ok "https://example.com/x".data := by decide
example : normalize_url "  http://a.io/p ".data = Except.ok "http://a.io/p".data := by decide
example : normalize_url "ftp://a.io".data = Except.error NormErr.unsupportedScheme := by decide
example : normalize_url "https:///x".data = Except.error NormErr.invalidHost := by decide
example : normalize_url "   ".data = Except.ok [] := by decide
example : normalize_url "localhost:8080/x".data = Except.error NormErr.unsupportedScheme := by decide
example : normalize_url "/foo".data = Except.error NormErr.invalidHost := by decide
example : normalize_url "http://".data = Except.error NormErr.invalidHost := by decide
example : normalize_url "http://[x".data =
  Except.error (NormErr.splitError "Invalid IPv6 URL".data) := by decide
example : normalize_url "exa[mple.com/x".data =
  Except.error (NormErr.splitError "Invalid IPv6 URL".data) := by decide
example : normalize_url "x]y.com".data =
  Except.error (NormErr.splitError "Invalid IPv6 URL".data) := by decide
example : normalize_url "http://\x01".data = Except.ok "http://\x01".data := by decide
example : normalize_url "a b.com".data = Except.ok "https://a b.com".data := by decide

/-- A row of the sqlite table urls. -/
structure LinkRecord where
  code : List Char
  long_url : List Char
  created_at : ℤ
  clicks : Nat
  last_accessed : Option ℤ
deriving DecidableEq

/-- The urls table: a list of rows. -/
abbrev Store := List LinkRecord

/-- SELECT 1 FROM urls WHERE code=? — does any row carry this code. -/
def dbExists (s : Store) (c : List Char) : Bool :=
  s.any (fun r => r.code = c)

/-- SELECT long_url FROM urls WHERE code=? with fetchone: the first (and
by the PRIMARY KEY invariant only) row with this code. -/
def lookupStore (s : Store) (c : List Char) : Option LinkRecord :=
  s.find? (fun r => r.code = c)

/-- INSERT INTO urls (code, long_url) VALUES (?, ?): the PRIMARY KEY
constraint raises IntegrityError (none) when the code is present;
otherwise the new row is added with clicks 0, last_accessed NULL and
created_at the current time. -/
def dbInsert (s : Store) (c u : List Char) (now : ℤ) : Option Store :=
  if dbExists s c then none
  else some (List.append s [⟨c, u, now, 0, none⟩])

/-- UPDATE urls SET clicks=clicks+1, last_accessed=now WHERE code=?. -/
def incrementClicks (s : Store) (c : List Char) (now : ℤ) : Store :=
  s.map (fun r =>
    if r.code = c then ⟨r.code, r.long_url, r.created_at, r.clicks + 1, some now⟩
    else r)

/-- RATE_LIMIT_BURST from app.py. -/
def RATE_LIMIT_BURST : Nat := 10

/-- RATE_LIMIT_WINDOW from app.py, in seconds. -/
def RATE_LIMIT_WINDOW : ℤ := 60

/-- The _rate_bucket dict: per-key timestamp lists, empty by default. -/
abbrev RateMap := List Char → List ℤ

/-- Store a new bucket under a key of the _rate_bucket dict. -/
def updateMap (m : RateMap) (k : List Char) (v : List ℤ) : RateMap :=
  fun q => if q = k then v else m q

/-- Model of rate_limited from app.py: prune timestamps at or before
now - 60, admit when fewer than 10 remain, record the current time only
on admission, store the pruned bucket back, and report denial. -/
def rate_limited (m : RateMap) (key : List Char) (now : ℤ) : Bool × RateMap :=
  let windowStart := now - RATE_LIMIT_WINDOW
  let bucket := (m key).filter (fun t => windowStart < t)
  let allowed : Bool := bucket.length < RATE_LIMIT_BURST
  let bucket1 := if allowed then bucket ++ [now] else bucket
  (!allowed, updateMap m key bucket1)

/-- CUSTOM_CODE_REGEX applied with re.match to an already stripped
string: between 3 and 32 characters, each an ASCII letter, digit,
underscore or hyphen.  (On a stripped string the dollar anchor cannot
exploit a trailing newline, so match and fullmatch agree.) -/
def customCodeMatches (s : List Char) : Bool :=
  3 ≤ s.length && s.length ≤ 32 &&
  s.all (fun c => c.isAlphanum || c = '_' || c = '-')

/-- The error message for a custom code that fails the pattern. -/
def customCodeErrMsg : List Char :=
  "Custom code: 3–32 chars (A–Z, a–z, 0–9, _ or -)".data

/-- The error message returned when the INSERT raises IntegrityError. -/
def codeTakenMsg : List Char := "That code is already taken".data

/-- The responses the /shorten endpoint can produce: the 429 rate-limit
response, a JSON error message, or the success JSON with code and
normalized URL. -/
inductive CreateResult
  | tooMany
  | errResp (msg : List Char)
  | okResp (code long_url : List Char)
deriving DecidableEq

/-- The mutable state the two endpoints touch: the urls table and the
process-local _rate_bucket dict. -/
structure AppState where
  store : Store
  rateMap : RateMap

/-- The rate-limit key built in create: the literal create: followed by
the client address. -/
def createKey (ip : List Char) : List Char := "create:".data ++ ip

/-- The random-code loop of create: for up to ten attempts take the next
generated code and stop at the first one not present; after the loop the
variable holds the last generated code whether or not it was free (the
final attempt is checked by the loop but the outcome does not depend on
that check). -/
def genCodeAux (s : Store) (r : Nat → List Char) : Nat → Nat → List Char
  | i, 0 => r i
  | i, fuel + 1 => if dbExists s (r i) then genCodeAux s r (i + 1) fuel else r i

/-- The code chosen by the ten-attempt loop, starting at attempt 0. -/
def genCode (s : Store) (r : Nat → List Char) : List Char :=
  genCodeAux s r 0 9

/-- The part of create after the rate-limit gate: normalize the URL
(returning its ValueError message on failure); with a custom code check
the pattern and insert without retry; otherwise run the random-code loop
and insert; an IntegrityError becomes the code-taken message. -/
def createValidated (st : AppState) (rawUrl custom : List Char) (now : ℤ)
    (r : Nat → List Char) : CreateResult × AppState :=
  match normalize_url rawUrl with
  | Except.error e => (CreateResult.errResp (errMsg e), st)
  | Except.ok longUrl =>
    if custom ≠ [] then
      if customCodeMatches custom then
        match dbInsert st.store custom longUrl now with
        | none => (CreateResult.errResp codeTakenMsg, st)
        | some s2 => (CreateResult.okResp custom longUrl, ⟨s2, st.rateMap⟩)
      else (CreateResult.errResp customCodeErrMsg, st)
    else
      let code := genCode st.store r
      match dbInsert st.store code longUrl now with
      | none => (CreateResult.errResp codeTakenMsg, st)
      | some s2 => (CreateResult.okResp code longUrl, ⟨s2, st.rateMap⟩)

/-- Model of the create endpoint (POST /shorten): consult the rate
limiter first (its bucket update always takes effect), answer 429 on
denial, and otherwise validate and insert.  The custom code form field
is stripped, the empty result meaning no custom code. -/
def create (st : AppState) (ip rawUrl rawCustom : List Char) (now : ℤ)
    (r : Nat → List Char) : CreateResult × AppState :=
  let res := rate_limited st.rateMap (createKey ip) now
  let st1 : AppState := ⟨st.store, res.2⟩
  if res.1 then (CreateResult.tooMany, st1)
  else createValidated st1 rawUrl (pyStrip rawCustom) now r

/-- The outcomes of the redirect endpoint: 404, an unhandled storage
exception (there is no handler around the increment), or the redirect
carrying the stored URL. -/
inductive GoResult
  | notFound
  | raised
  | redirectTo (url : List Char)
deriving DecidableEq

/-- Model of the go endpoint (GET /code): look the code up, 404 when
absent; otherwise increment clicks and stamp last_accessed, then
redirect to the stored URL.  incFails injects a transient storage
failure into the increment step: the exception propagates (raised) and
no redirect is produced. -/
def go (s : Store) (c : List Char) (now : ℤ) (incFails : Bool) :
    GoResult × Store :=
  match lookupStore s c with
  | none => (GoResult.notFound, s)
  | some row =>
    if incFails then (GoResult.raised, s)
    else (GoResult.redirectTo row.long_url, incrementClicks s c now)

/-- A request against the service core: either a shorten request or a
redirect request (with its failure-injection flag). -/
inductive Op
  | shortenOp (ip rawUrl rawCustom : List Char) (now : ℤ) (r : Nat → List Char)
  | resolveOp (c : List Char) (now : ℤ) (fail : Bool)

/-- Apply one request to the state. -/
def applyOp (st : AppState) : Op → AppState
  | Op.shortenOp ip u cu t r => (create st ip u cu t r).2
  | Op.resolveOp c t f => ⟨(go st.store c t f).2, st.rateMap⟩

/-- The state at startup: empty table, empty rate dict. -/
def initState : AppState := ⟨[], fun _ => []⟩

/-- Run a sequence of requests from startup. -/
def runOps (ops : List Op) : AppState := ops.foldl applyOp initState

/-- Fold the redirect endpoint over a list of call times, collecting
the response of each call and threading the store. -/
def resolveRun (s : Store) (c : List Char) : List ℤ → List GoResult × Store
  | [] => ([], s)
  | t :: ts =>
    let first := go s c t false
    let rest := resolveRun first.2 c ts
    (first.1 :: rest.1, rest.2)

/-- Fold the rate limiter over a list of call times for a single key,
collecting the denial flag of each call and threading the dict. -/
def admitRun (key : List Char) (m : RateMap) : List ℤ → List Bool × RateMap
  | [] => ([], m)
  | t :: ts =>
    let first := rate_limited m key t
    let rest := admitRun key first.2 ts
    (first.1 :: rest.1, rest.2)

/-- The first element surviving dropWhile fails the predicate. -/
lemma dropWhile_head_not {p : Char → Bool} :
    ∀ {l : List Char} {c : Char} {t : List Char},
      l.dropWhile p = c :: t → p c = false := by
  intro l
  induction l with
  | nil => intro c t h; simp [List.dropWhile] at h
  | cons a l ih =>
    intro c t h
    by_cases hp : p a = true
    · rw [List.dropWhile_cons_of_pos hp] at h
      exact ih h
    · rw [List.dropWhile_cons_of_neg hp] at h
      cases h
      simpa using hp

/-- dropWhile is the identity when the head already fails the
predicate. -/
lemma dropWhile_eq_self_of_head {p : Char → Bool} {l : List Char}
    (h : ∀ c t, l = c :: t → p c = false) : l.dropWhile p = l := by
  cases l with
  | nil => rfl
  | cons a t =>
    rw [List.dropWhile_cons_of_neg]
    simp [h a t rfl]

/-- The last element of a stripped string is not whitespace. -/
lemma pyStrip_last_not {s : List Char} {c : Char} {t : List Char}
    (h : (pyStrip s).reverse = c :: t) : isPySpace c = false := by
  unfold pyStrip at h
  rw [List.reverse_reverse] at h
  exact dropWhile_head_not h

/-- The first element of a stripped string is not whitespace. -/
lemma pyStrip_head_not {s : List Char} {c : Char} {t : List Char}
    (h : pyStrip s = c :: t) : isPySpace c = false := by
  unfold pyStrip at h
  have hpre : s.dropWhile isPySpace =
      ((s.dropWhile isPySpace).reverse.dropWhile isPySpace).reverse ++
        ((s.dropWhile isPySpace).reverse.takeWhile isPySpace).reverse := by
    have := List.takeWhile_append_dropWhile (p := isPySpace)
      (l := (s.dropWhile isPySpace).reverse)
    calc s.dropWhile isPySpace
        = (s.dropWhile isPySpace).reverse.reverse := by rw [List.reverse_reverse]
      _ = ((s.dropWhile isPySpace).reverse.takeWhile isPySpace ++
            (s.dropWhile isPySpace).reverse.dropWhile isPySpace).reverse := by rw [this]
      _ = _ := by rw [List.reverse_append]
  rw [h] at hpre
  exact dropWhile_head_not hpre

/-- A string whose first and last characters are not whitespace is fixed
by pyStrip. -/
lemma pyStrip_eq_self {s : List Char}
    (h1 : ∀ c t, s = c :: t → isPySpace c = false)
    (h2 : ∀ c t, s.reverse = c :: t → isPySpace c = false) :
    pyStrip s = s := by
  unfold pyStrip
  rw [dropWhile_eq_self_of_head h1, dropWhile_eq_self_of_head h2,
    List.reverse_reverse]

/-- pyStrip is idempotent. -/
lemma pyStrip_idem (s : List Char) : pyStrip (pyStrip s) = pyStrip s := by
  apply pyStrip_eq_self
  · intro c t h; exact pyStrip_head_not h
  · intro c t h; exact pyStrip_last_not h

/-- Prepending https:// to a non-empty stripped string yields a string
that pyStrip leaves unchanged. -/
lemma pyStrip_https_append {s : List Char} (h : pyStrip s ≠ []) :
    pyStrip (httpsScheme ++ pyStrip s) = httpsScheme ++ pyStrip s := by
  apply pyStrip_eq_self
  · intro c t hc
    have : c = 'h' := by
      have := congrArg (fun l => l.head?) hc
      simpa [httpsScheme] using this.symm
    rw [this]; decide
  · intro c t hc
    rw [List.reverse_append] at hc
    rcases hrev : (pyStrip s).reverse with _ | ⟨b, u⟩
    · exact absurd (by simpa using congrArg List.reverse hrev) h
    · rw [hrev] at hc
      simp only [List.cons_append] at hc
      cases hc
      exact pyStrip_last_not hrev

/-- What a success of the three checks tells. -/
lemma normChecks_eq_ok {p : ParseResult} {u v : List Char}
    (h : normChecks p u = Except.ok v) :
    v = u ∧ (p.scheme = "http".data ∨ p.scheme = "https".data) ∧
    p.netloc ≠ [] ∧ u.length ≤ MAX_URL_LEN := by
  unfold normChecks at h
  split at h
  · split at h
    · exact absurd h (by simp)
    · split at h
      · exact absurd h (by simp)
      · injection h with h2
        refine ⟨h2.symm, by assumption, by assumption, by omega⟩
  · exact absurd h (by simp)

/-- The three checks succeed under their stated conditions. -/
lemma normChecks_ok_of {p : ParseResult} {u : List Char}
    (hs : p.scheme = "http".data ∨ p.scheme = "https".data)
    (hn : p.netloc ≠ []) (hl : u.length ≤ MAX_URL_LEN) :
    normChecks p u = Except.ok u := by
  unfold normChecks
  rw [if_pos hs, if_neg hn, if_neg (by omega)]

/-- Unfolding of normalize_url on input that does not strip to the
empty string. -/
lemma normalize_url_of_ne (u0 : List Char) (h : pyStrip u0 ≠ []) :
    normalize_url u0 =
      (match urlsplitE (pyStrip u0) with
       | Except.error m => Except.error (NormErr.splitError m)
       | Except.ok p0 =>
         if p0.scheme = [] then
           match urlsplitE (httpsScheme ++ pyStrip u0) with
           | Except.error m => Except.error (NormErr.splitError m)
           | Except.ok p => normChecks p (httpsScheme ++ pyStrip u0)
         else normChecks p0 (pyStrip u0)) := by
  simp only [normalize_url]
  rw [if_neg h]

/-- What a successful normalize_url tells about its output. -/
lemma normalize_ok_cases {u0 v : List Char}
    (h : normalize_url u0 = Except.ok v) :
    (pyStrip u0 = [] ∧ v = []) ∨
    (pyStrip u0 ≠ [] ∧
      (v = pyStrip u0 ∨ v = httpsScheme ++ pyStrip u0) ∧
      ∃ p, urlsplitE v = Except.ok p ∧
        (p.scheme = "http".data ∨ p.scheme = "https".data) ∧
        p.netloc ≠ [] ∧ v.length ≤ MAX_URL_LEN) := by
  by_cases he : pyStrip u0 = []
  · left
    refine ⟨he, ?_⟩
    unfold normalize_url at h
    rw [if_pos he] at h
    injection h with h2
    rw [← h2]
    exact he
  · right
    rw [normalize_url_of_ne u0 he] at h
    split at h
    · exact absurd h (by simp)
    · rename_i p0 hsp
      split at h
      · split at h
        · exact absurd h (by simp)
        · rename_i p hsp2
          obtain ⟨hv, hs, hn, hl⟩ := normChecks_eq_ok h
          subst hv
          exact ⟨he, Or.inr rfl, p, hsp2, hs, hn, hl⟩
      · obtain ⟨hv, hs, hn, hl⟩ := normChecks_eq_ok h
        subst hv
        exact ⟨he, Or.inl rfl, p0, hsp, hs, hn, hl⟩

/-- A string already in normalized shape passes normalize_url
unchanged. -/
lemma normalize_ok_self {v : List Char} {p : ParseResult} (hne : v ≠ [])
    (hstrip : pyStrip v = v) (hsp : urlsplitE v = Except.ok p)
    (hs : p.scheme = "http".data ∨ p.scheme = "https".data)
    (hn : p.netloc ≠ []) (hl : v.length ≤ MAX_URL_LEN) :
    normalize_url v = Except.ok v := by
  have hsch : p.scheme ≠ [] := by
    rcases hs with hs | hs <;> rw [hs] <;> decide
  rw [normalize_url_of_ne v (by rw [hstrip]; exact hne)]
  simp only [hstrip, hsp]
  rw [if_neg hsch]
  exact normChecks_ok_of hs hn hl

/-- C4 (corrected): the claim quantifies over every raw URL string, but
a string that strips to whitespace only is returned unchanged as the
empty string — no https:// is prepended and no InvalidHost error is
raised, contrary to the claimed case analysis. -/
theorem C4_counterexample :
    normalize_url "   ".data = Except.ok [] ∧
    Except.ok ([] : List Char) ≠
      (Except.error NormErr.invalidHost : Except NormErr (List Char)) ∧
    ([] : List Char) ≠ httpsScheme := by
  refine ⟨by decide, by decide, by decide⟩

/-- C4 (amended): for every raw URL string in the modelled domain
(ASCII, no closing bracket, no C0 control leading the stripped form)
that does not trim to the empty string, normalization trims whitespace;
a ValueError raised by the URL parser (such as Invalid IPv6 URL on an
unpaired bracket) propagates with its message; otherwise it prepends
https:// exactly when no scheme was found, then rejects
UnsupportedScheme when the scheme is not http or https, InvalidHost
when there is no host component, URLTooLong when the normalized length
exceeds 2048, and otherwise returns the normalized URL; in particular
example.com/x becomes https://example.com/x, and http://[x surfaces the
parser error. -/
theorem C4_normalize (u0 : List Char) (h : pyStrip u0 ≠ [])
    (_hp : plainInput u0 = true) :
    (normalize_url u0 =
      (match urlsplitE (pyStrip u0) with
       | Except.error m => Except.error (NormErr.splitError m)
       | Except.ok p0 =>
         if p0.scheme = [] then
           match urlsplitE (httpsScheme ++ pyStrip u0) with
           | Except.error m => Except.error (NormErr.splitError m)
           | Except.ok p =>
             if p.scheme = "http".data ∨ p.scheme = "https".data then
               if p.netloc = [] then Except.error NormErr.invalidHost
               else if MAX_URL_LEN < (httpsScheme ++ pyStrip u0).length then
                 Except.error NormErr.urlTooLong
               else Except.ok (httpsScheme ++ pyStrip u0)
             else Except.error NormErr.unsupportedScheme
         else
           if p0.scheme = "http".data ∨ p0.scheme = "https".data then
             if p0.netloc = [] then Except.error NormErr.invalidHost
             else if MAX_URL_LEN < (pyStrip u0).length then
               Except.error NormErr.urlTooLong
             else Except.ok (pyStrip u0)
           else Except.error NormErr.unsupportedScheme)) ∧
    normalize_url "example.com/x".data = Except.ok "https://example.com/x".data ∧
    normalize_url "http://[x".data =
      Except.error (NormErr.splitError "Invalid IPv6 URL".data) := by
  refine ⟨?_, by decide, by decide⟩
  rw [normalize_url_of_ne u0 h]
  simp only [normChecks]

/-- C4 witness: the amended statement applied to a concrete input. -/
theorem C4_witness :
    normalize_url "example.com/x".data = Except.ok "https://example.com/x".data :=
  (C4_normalize "example.com/x".data (by decide) (by decide)).2.1

/-- C9 (confirmed on the modelled domain): normalize_url is idempotent
— whenever it succeeds on an input in the domain where the embedding
matches the stdlib exactly, running it on its own output succeeds and
returns the output unchanged. -/
theorem C9_normalize_idempotent (u0 v : List Char)
    (h : normalize_url u0 = Except.ok v) (_hp : plainInput u0 = true) :
    normalize_url v = Except.ok v := by
  rcases normalize_ok_cases h with ⟨_, hv⟩ | ⟨hne, hv, p, hsp, hs, hn, hl⟩
  · rw [hv]; decide
  · have hvne : v ≠ [] := by
      rcases hv with hv | hv <;> rw [hv]
      · exact hne
      · simp [httpsScheme]
    have hstrip : pyStrip v = v := by
      rcases hv with hv | hv <;> rw [hv]
      · exact pyStrip_idem u0
      · exact pyStrip_https_append hne
    exact normalize_ok_self hvne hstrip hsp hs hn hl

/-- C9 witness: idempotence applied to a concrete successful input. -/
theorem C9_witness :
    normalize_url "https://example.com/x".data =
      Except.ok "https://example.com/x".data :=
  C9_normalize_idempotent "example.com/x".data "https://example.com/x".data
    (by decide) (by decide)

/-- An insert that returns a store succeeded: the code was absent and
the new row was appended. -/
lemma dbInsert_some {s : Store} {c u : List Char} {now : ℤ} {s2 : Store}
    (h : dbInsert s c u now = some s2) :
    dbExists s c = false ∧ s2 = List.append s [⟨c, u, now, 0, none⟩] := by
  unfold dbInsert at h
  split at h
  · exact absurd h (by simp)
  · injection h with h2
    refine ⟨by simpa using ‹¬dbExists s c = true›, h2.symm⟩

/-- An insert fails exactly when the code is already present. -/
lemma dbInsert_none_iff {s : Store} {c u : List Char} {now : ℤ} :
    dbInsert s c u now = none ↔ dbExists s c = true := by
  unfold dbInsert
  split
  · simpa using ‹_›
  · simpa using ‹¬dbExists s c = true›

/-- When a request is denied, create answers 429 and only the rate
bucket changes. -/
lemma create_denied {st : AppState} {ip rawUrl rawCustom : List Char}
    {now : ℤ} {r : Nat → List Char}
    (h : (rate_limited st.rateMap (createKey ip) now).1 = true) :
    create st ip rawUrl rawCustom now r =
      (CreateResult.tooMany, ⟨st.store, (rate_limited st.rateMap (createKey ip) now).2⟩) := by
  simp only [create]
  rw [if_pos h]

/-- When a request is admitted, create proceeds to validation on the
state carrying the updated rate bucket. -/
lemma create_admitted {st : AppState} {ip rawUrl rawCustom : List Char}
    {now : ℤ} {r : Nat → List Char}
    (h : (rate_limited st.rateMap (createKey ip) now).1 = false) :
    create st ip rawUrl rawCustom now r =
      createValidated ⟨st.store, (rate_limited st.rateMap (createKey ip) now).2⟩
        rawUrl (pyStrip rawCustom) now r := by
  simp only [create]
  rw [if_neg (by rw [h]; exact Bool.false_ne_true)]

/-- createValidated never touches the rate bucket. -/
lemma createValidated_rateMap (st : AppState) (rawUrl custom : List Char)
    (now : ℤ) (r : Nat → List Char) :
    (createValidated st rawUrl custom now r).2.rateMap = st.rateMap := by
  simp only [createValidated]
  split
  · rfl
  · split
    · split
      · split <;> rfl
      · rfl
    · split <;> rfl

/-- The rate bucket after create is exactly what rate_limited stored,
whatever the outcome. -/
lemma create_rateMap (st : AppState) (ip rawUrl rawCustom : List Char)
    (now : ℤ) (r : Nat → List Char) :
    (create st ip rawUrl rawCustom now r).2.rateMap =
      (rate_limited st.rateMap (createKey ip) now).2 := by
  simp only [create]
  split
  · rfl
  · rw [createValidated_rateMap]

/-- If the whole ten-attempt range collides, the loop leaves the last
generated code in the loop variable. -/
lemma genCodeAux_all_taken {s : Store} {r : Nat → List Char} :
    ∀ (fuel i : Nat), (∀ j, j ≤ i + fuel → dbExists s (r j) = true) →
      genCodeAux s r i fuel = r (i + fuel) := by
  intro fuel
  induction fuel with
  | zero => intro i _; rfl
  | succ fuel ih =>
    intro i hall
    unfold genCodeAux
    rw [if_pos (hall i (by omega))]
    have := ih (i + 1) (fun j hj => hall j (by omega))
    rw [this]
    congr 1
    omega

/-- With every attempt colliding, the chosen code is the tenth random
code, itself present in the store. -/
lemma genCode_all_taken {s : Store} {r : Nat → List Char}
    (hall : ∀ j, j ≤ 9 → dbExists s (r j) = true) :
    genCode s r = r 9 := by
  unfold genCode
  exact genCodeAux_all_taken 9 0 (fun j hj => hall j (by omega))

/-- createValidated on a validation failure: the ValueError message is
returned and nothing is persisted. -/
lemma createValidated_err (st : AppState) {rawUrl custom : List Char}
    {now : ℤ} {r : Nat → List Char} {e : NormErr}
    (hurl : normalize_url rawUrl = Except.error e) :
    createValidated st rawUrl custom now r =
      (CreateResult.errResp (errMsg e), st) := by
  simp only [createValidated, hurl]

/-- createValidated with a (stripped, non-empty) custom code reduces to
the pattern check followed by the single insert attempt. -/
lemma createValidated_custom (st : AppState) {rawUrl custom : List Char}
    {now : ℤ} {r : Nat → List Char} {v : List Char}
    (hurl : normalize_url rawUrl = Except.ok v) (hne : custom ≠ []) :
    createValidated st rawUrl custom now r =
      (if customCodeMatches custom then
        match dbInsert st.store custom v now with
        | none => (CreateResult.errResp codeTakenMsg, st)
        | some s2 => (CreateResult.okResp custom v, ⟨s2, st.rateMap⟩)
      else (CreateResult.errResp customCodeErrMsg, st)) := by
  simp only [createValidated, hurl]
  rw [if_pos hne]

/-- createValidated with no custom code reduces to the random-code loop
followed by the insert attempt. -/
lemma createValidated_random (st : AppState) {rawUrl : List Char}
    {now : ℤ} {r : Nat → List Char} {v : List Char}
    (hurl : normalize_url rawUrl = Except.ok v) :
    createValidated st rawUrl [] now r =
      (match dbInsert st.store (genCode st.store r) v now with
      | none => (CreateResult.errResp codeTakenMsg, st)
      | some s2 => (CreateResult.okResp (genCode st.store r) v, ⟨s2, st.rateMap⟩)) := by
  simp only [createValidated, hurl]
  rw [if_neg (by simp)]

/-- Every success of createValidated comes from a successful
normalization and a successful insert of a previously absent code. -/
lemma createValidated_eq_ok {st : AppState} {rawUrl custom : List Char}
    {now : ℤ} {r : Nat → List Char} {c v : List Char} {st2 : AppState}
    (h : createValidated st rawUrl custom now r = (CreateResult.okResp c v, st2)) :
    normalize_url rawUrl = Except.ok v ∧ dbExists st.store c = false ∧
    st2.store = List.append st.store [⟨c, v, now, 0, none⟩] := by
  simp only [createValidated] at h
  split at h
  · exact absurd h (by simp)
  · rename_i w hw
    split at h
    · split at h
      · split at h
        · exact absurd h (by simp)
        · rename_i s2 hins
          injection h with h1 h2
          injection h1 with hc hv
          subst hc
          subst hv
          obtain ⟨hex, hs2⟩ := dbInsert_some hins
          exact ⟨hw, hex, by rw [← h2, hs2]⟩
      · exact absurd h (by simp)
    · split at h
      · exact absurd h (by simp)
      · rename_i s2 hins
        injection h with h1 h2
        injection h1 with hc hv
        subst hc
        subst hv
        obtain ⟨hex, hs2⟩ := dbInsert_some hins
        exact ⟨hw, hex, by rw [← h2, hs2]⟩

/-- The facts normalize_ok_cases gives about a successful output whose
input did not strip to the empty string. -/
lemma normalize_ok_props {u0 v : List Char}
    (h : normalize_url u0 = Except.ok v) (hne : pyStrip u0 ≠ []) :
    v ≠ [] ∧ v.length ≤ MAX_URL_LEN ∧
    (∃ p, urlsplitE v = Except.ok p ∧
      (p.scheme = "http".data ∨ p.scheme = "https".data) ∧ p.netloc ≠ []) ∧
    normalize_url v = Except.ok v := by
  rcases normalize_ok_cases h with ⟨he, _⟩ | ⟨_, hv, p, hsp, hs, hn, hl⟩
  · exact absurd he hne
  · have hvne : v ≠ [] := by
      rcases hv with hv | hv <;> rw [hv]
      · exact hne
      · simp [httpsScheme]
    have hstrip : pyStrip v = v := by
      rcases hv with hv | hv <;> rw [hv]
      · exact pyStrip_idem u0
      · exact pyStrip_https_append hne
    exact ⟨hvne, hl, ⟨p, hsp, hs, hn⟩,
      normalize_ok_self hvne hstrip hsp hs hn hl⟩

/-- C1 (corrected): when all ten random-code attempts find only taken
codes, create does not surface a distinct ExhaustedRetries condition: it
falls through with the tenth (still colliding) code, whose INSERT raises
IntegrityError, and answers with exactly the same code-already-taken
error that a custom-code collision produces; nothing is persisted. -/
theorem C1_exhausted_retries (st : AppState) (ip rawUrl rawCustom : List Char)
    (now : ℤ) (r : Nat → List Char) (v : List Char)
    (hadm : (rate_limited st.rateMap (createKey ip) now).1 = false)
    (hurl : normalize_url rawUrl = Except.ok v)
    (hcust : pyStrip rawCustom = [])
    (hall : ∀ j, j ≤ 9 → dbExists st.store (r j) = true) :
    (create st ip rawUrl rawCustom now r).1 = CreateResult.errResp codeTakenMsg ∧
    (create st ip rawUrl rawCustom now r).2.store = st.store := by
  rw [create_admitted hadm, hcust,
    createValidated_random ⟨st.store, (rate_limited st.rateMap (createKey ip) now).2⟩ hurl]
  rw [genCode_all_taken hall, dbInsert_none_iff.mpr (hall 9 (by omega))]
  exact ⟨rfl, rfl⟩

/-- C1 counterexample: with one stored record and a random stream that
always returns that records code, the shorten request with no custom
code produces the very error response reserved (per the claim) for
custom-code collisions — the second conjunct shows a custom-code
collision producing the identical response — and no ExhaustedRetries
condition exists. -/
theorem C1_counterexample :
    (create ⟨[⟨"aaaaaa".data, "https://a.com".data, 0, 0, none⟩], fun _ => []⟩
      "9.9.9.9".data "http://example.org".data [] 0 (fun _ => "aaaaaa".data)).1 =
      CreateResult.errResp codeTakenMsg ∧
    (create ⟨[⟨"aaaaaa".data, "https://a.com".data, 0, 0, none⟩], fun _ => []⟩
      "9.9.9.9".data "http://other.org".data "aaaaaa".data 0 (fun _ => "zzzzzz".data)).1 =
      CreateResult.errResp codeTakenMsg := by
  exact ⟨by decide, by decide⟩

/-- C1 witness: the amended statement applied to the concrete
all-collisions scenario. -/
theorem C1_witness :
    (create ⟨[⟨"aaaaaa".data, "https://a.com".data, 0, 0, none⟩], fun _ => []⟩
      "9.9.9.9".data "http://example.org".data [] 0 (fun _ => "aaaaaa".data)).1 =
      CreateResult.errResp codeTakenMsg ∧
    (create ⟨[⟨"aaaaaa".data, "https://a.com".data, 0, 0, none⟩], fun _ => []⟩
      "9.9.9.9".data "http://example.org".data [] 0 (fun _ => "aaaaaa".data)).2.store =
      [⟨"aaaaaa".data, "https://a.com".data, 0, 0, none⟩] :=
  C1_exhausted_retries ⟨[⟨"aaaaaa".data, "https://a.com".data, 0, 0, none⟩], fun _ => []⟩
    "9.9.9.9".data "http://example.org".data [] 0 (fun _ => "aaaaaa".data)
    "http://example.org".data (by decide) (by decide) (by decide)
    (fun j hj => by
      show dbExists [⟨"aaaaaa".data, "https://a.com".data, 0, 0, none⟩]
        "aaaaaa".data = true
      decide)

/-- C3 (corrected): for requests in the modelled input domain whose raw
URL does not strip to the empty string, any successful shorten persists
a non-empty normalized URL of at most 2048 characters whose parse has
an http or https scheme and a non-empty host, the URL is a fixed point
of normalization, and the record appended to the store carries exactly
that URL.  (An empty or whitespace-only raw URL, by contrast, is
persisted with an empty long_url — see the counterexample.) -/
theorem C3_persisted_url (st : AppState) (ip rawUrl rawCustom : List Char)
    (now : ℤ) (r : Nat → List Char) (c v : List Char)
    (hok : (create st ip rawUrl rawCustom now r).1 = CreateResult.okResp c v)
    (hne : pyStrip rawUrl ≠ []) (_hp : plainInput rawUrl = true) :
    v ≠ [] ∧ v.length ≤ MAX_URL_LEN ∧
    (∃ p, urlsplitE v = Except.ok p ∧
      (p.scheme = "http".data ∨ p.scheme = "https".data) ∧ p.netloc ≠ []) ∧
    normalize_url v = Except.ok v ∧
    (create st ip rawUrl rawCustom now r).2.store =
      List.append st.store [⟨c, v, now, 0, none⟩] := by
  cases hl : (rate_limited st.rateMap (createKey ip) now).1 with
  | true =>
    rw [create_denied hl] at hok
    exact absurd hok (by simp)
  | false =>
    rw [create_admitted hl] at hok ⊢
    have heta := Prod.mk.eta
      (p := createValidated ⟨st.store, (rate_limited st.rateMap (createKey ip) now).2⟩
        rawUrl (pyStrip rawCustom) now r)
    rw [hok] at heta
    obtain ⟨hurl, _, hst⟩ := createValidated_eq_ok heta.symm
    obtain ⟨h1, h2, h3, h4⟩ := normalize_ok_props hurl hne
    exact ⟨h1, h2, h3, h4, hst⟩

/-- C3 counterexample: the whitespace-only raw URL is accepted and a
record with an empty long_url is persisted, violating the claimed
invariant at the very input the claim singles out. -/
theorem C3_counterexample :
    (create ⟨[], fun _ => []⟩ "1.2.3.4".data "   ".data [] 0
      (fun _ => "abc123".data)).1 = CreateResult.okResp "abc123".data [] ∧
    (create ⟨[], fun _ => []⟩ "1.2.3.4".data "   ".data [] 0
      (fun _ => "abc123".data)).2.store = [⟨"abc123".data, [], 0, 0, none⟩] := by
  exact ⟨by decide, by decide⟩

/-- C3 witness: the amended statement applied to a concrete successful
request with a non-empty URL. -/
theorem C3_witness :
    "http://a.io/p".data ≠ ([] : List Char) ∧
    (create ⟨[], fun _ => []⟩ "1.2.3.4".data "  http://a.io/p ".data [] 0
      (fun _ => "abc123".data)).2.store =
      List.append [] [⟨"abc123".data, "http://a.io/p".data, 0, 0, none⟩] :=
  ⟨(C3_persisted_url ⟨[], fun _ => []⟩ "1.2.3.4".data "  http://a.io/p ".data [] 0
      (fun _ => "abc123".data) "abc123".data "http://a.io/p".data
      (by decide) (by decide) (by decide)).1,
   (C3_persisted_url ⟨[], fun _ => []⟩ "1.2.3.4".data "  http://a.io/p ".data [] 0
      (fun _ => "abc123".data) "abc123".data "http://a.io/p".data
      (by decide) (by decide) (by decide)).2.2.2.2⟩

/-- C7 (corrected): the regex gate applies to the whitespace-stripped
form field, not the raw supplied string (a supplied value that strips to
empty is treated as no custom code at all): under an admitted request
with a successfully normalized URL and a non-empty stripped custom code,
create rejects with the format-error message exactly when the stripped
string fails the pattern; a matching stripped code that already exists
yields the code-taken error with the store untouched (no retry is
possible: the custom path performs a single insert); a matching free
code is inserted. -/
theorem C7_custom_code (st : AppState) (ip rawUrl rawCustom : List Char)
    (now : ℤ) (r : Nat → List Char) (v : List Char)
    (hadm : (rate_limited st.rateMap (createKey ip) now).1 = false)
    (hurl : normalize_url rawUrl = Except.ok v)
    (hne : pyStrip rawCustom ≠ []) :
    (customCodeMatches (pyStrip rawCustom) = false →
      (create st ip rawUrl rawCustom now r).1 = CreateResult.errResp customCodeErrMsg ∧
      (create st ip rawUrl rawCustom now r).2.store = st.store) ∧
    (customCodeMatches (pyStrip rawCustom) = true →
      dbExists st.store (pyStrip rawCustom) = true →
      (create st ip rawUrl rawCustom now r).1 = CreateResult.errResp codeTakenMsg ∧
      (create st ip rawUrl rawCustom now r).2.store = st.store) ∧
    (customCodeMatches (pyStrip rawCustom) = true →
      dbExists st.store (pyStrip rawCustom) = false →
      (create st ip rawUrl rawCustom now r).1 =
        CreateResult.okResp (pyStrip rawCustom) v ∧
      (create st ip rawUrl rawCustom now r).2.store =
        List.append st.store [⟨pyStrip rawCustom, v, now, 0, none⟩]) := by
  rw [create_admitted hadm,
    createValidated_custom ⟨st.store, (rate_limited st.rateMap (createKey ip) now).2⟩
      hurl hne]
  refine ⟨?_, ?_, ?_⟩
  · intro hm
    rw [if_neg (by rw [hm]; exact Bool.false_ne_true)]
    exact ⟨rfl, rfl⟩
  · intro hm hex
    rw [if_pos hm]
    rw [show dbInsert st.store (pyStrip rawCustom) v now = none from
      dbInsert_none_iff.mpr hex]
    exact ⟨rfl, rfl⟩
  · intro hm hex
    rw [if_pos hm]
    rw [show dbInsert st.store (pyStrip rawCustom) v now =
      some (List.append st.store [⟨pyStrip rawCustom, v, now, 0, none⟩]) from by
        unfold dbInsert
        rw [if_neg (by rw [hex]; exact Bool.false_ne_true)]]
    exact ⟨rfl, rfl⟩

/-- C7 counterexample: the supplied custom code carries surrounding
whitespace so it does not match the pattern, yet the request succeeds
(with the stripped code) instead of returning InvalidCodeFormat. -/
theorem C7_counterexample :
    customCodeMatches " abc ".data = false ∧
    (create ⟨[], fun _ => []⟩ "7.7.7.7".data "http://example.com".data
      " abc ".data 0 (fun _ => "qqqqqq".data)).1 =
      CreateResult.okResp "abc".data "http://example.com".data := by
  exact ⟨by decide, by decide⟩

/-- C7 witness: the amended statement applied to a concrete collision on
an existing custom code. -/
theorem C7_witness :
    (create ⟨[⟨"abc".data, "https://x.io".data, 0, 0, none⟩], fun _ => []⟩
      "7.7.7.7".data "http://example.com".data " abc ".data 0
      (fun _ => "qqqqqq".data)).1 = CreateResult.errResp codeTakenMsg ∧
    (create ⟨[⟨"abc".data, "https://x.io".data, 0, 0, none⟩], fun _ => []⟩
      "7.7.7.7".data "http://example.com".data " abc ".data 0
      (fun _ => "qqqqqq".data)).2.store =
      [⟨"abc".data, "https://x.io".data, 0, 0, none⟩] :=
  (C7_custom_code ⟨[⟨"abc".data, "https://x.io".data, 0, 0, none⟩], fun _ => []⟩
    "7.7.7.7".data "http://example.com".data " abc ".data 0
    (fun _ => "qqqqqq".data) "http://example.com".data
    (by decide) (by decide) (by decide)).2.1 (by decide) (by decide)

/-- Looking up a code after the increment yields the same row with the
click counter bumped and the access time stamped. -/
lemma lookup_incrementClicks (s : Store) (c : List Char) (now : ℤ) :
    lookupStore (incrementClicks s c now) c =
      (lookupStore s c).map
        (fun r => ⟨r.code, r.long_url, r.created_at, r.clicks + 1, some now⟩) := by
  induction s with
  | nil => rfl
  | cons a s ih =>
    by_cases hc : a.code = c
    · simp [lookupStore, incrementClicks, List.find?_cons, hc]
    · simp only [lookupStore, incrementClicks, List.map_cons] at *
      rw [if_neg hc]
      rw [List.find?_cons_of_neg, List.find?_cons_of_neg]
      · exact ih
      · simp [hc]
      · simp [hc]

/-- On a present code without failure injection, go redirects to the
stored URL and increments. -/
lemma go_present {s : Store} {c : List Char} {now : ℤ} {rec : LinkRecord}
    (h : lookupStore s c = some rec) :
    go s c now false = (GoResult.redirectTo rec.long_url, incrementClicks s c now) := by
  simp [go, h]

/-- C2 (corrected): there is no handler around the click increment, so a
transient storage failure there propagates out of the redirect handler —
the stored URL is not returned and the store is unchanged; the redirect
with the stored URL happens only when the increment succeeds. -/
theorem C2_increment_failure (s : Store) (c : List Char) (now : ℤ)
    (rec : LinkRecord) (h : lookupStore s c = some rec) :
    go s c now true = (GoResult.raised, s) ∧
    go s c now false = (GoResult.redirectTo rec.long_url, incrementClicks s c now) := by
  exact ⟨by simp [go, h], go_present h⟩

/-- C2 counterexample: with a record present and the increment step
failing transiently, the redirect handler raises instead of returning
the stored long_url as the claim asserts. -/
theorem C2_counterexample :
    go [⟨"abc".data, "https://example.com".data, 0, 0, none⟩] "abc".data 5 true =
      (GoResult.raised, [⟨"abc".data, "https://example.com".data, 0, 0, none⟩]) ∧
    GoResult.raised ≠ GoResult.redirectTo "https://example.com".data := by
  exact ⟨by decide, by decide⟩

/-- C2 witness: the amended statement applied to a concrete store. -/
theorem C2_witness :
    go [⟨"abc".data, "https://example.com".data, 0, 0, none⟩] "abc".data 5 true =
      (GoResult.raised, [⟨"abc".data, "https://example.com".data, 0, 0, none⟩]) ∧
    go [⟨"abc".data, "https://example.com".data, 0, 0, none⟩] "abc".data 5 false =
      (GoResult.redirectTo "https://example.com".data,
        incrementClicks [⟨"abc".data, "https://example.com".data, 0, 0, none⟩]
          "abc".data 5) :=
  C2_increment_failure [⟨"abc".data, "https://example.com".data, 0, 0, none⟩]
    "abc".data 5 ⟨"abc".data, "https://example.com".data, 0, 0, none⟩ (by decide)

/-- C6 (confirmed): resolving a present code N times (no interleaving,
no injected failures) redirects to the same stored long_url on every
call and leaves the record with clicks increased by exactly N and
last_accessed set by the latest call; resolving an absent code answers
NotFound every time and leaves the store untouched. -/
theorem C6_resolve_repeat :
    (∀ (s : Store) (c : List Char) (rec : LinkRecord) (ts : List ℤ),
      lookupStore s c = some rec →
        (resolveRun s c ts).1 = ts.map (fun _ => GoResult.redirectTo rec.long_url) ∧
        lookupStore (resolveRun s c ts).2 c = some
          ⟨rec.code, rec.long_url, rec.created_at, rec.clicks + ts.length,
            match ts.getLast? with
            | some t => some t
            | none => rec.last_accessed⟩) ∧
    (∀ (s : Store) (c : List Char) (ts : List ℤ),
      lookupStore s c = none →
        resolveRun s c ts = (ts.map (fun _ => GoResult.notFound), s)) := by
  constructor
  · intro s c rec ts
    induction ts generalizing s rec with
    | nil =>
      intro h
      refine ⟨rfl, ?_⟩
      show lookupStore s c = _
      rw [h]
      cases rec
      simp
    | cons t ts ih =>
      intro h
      have hgo := @go_present s c t rec h
      have hlook := lookup_incrementClicks s c t
      rw [h] at hlook
      have hih := ih (incrementClicks s c t)
        ⟨rec.code, rec.long_url, rec.created_at, rec.clicks + 1, some t⟩ hlook
      constructor
      · show (resolveRun s c (t :: ts)).1 = _
        simp only [resolveRun, hgo]
        rw [hih.1]
        simp
      · show lookupStore (resolveRun s c (t :: ts)).2 c = _
        simp only [resolveRun, hgo]
        rw [hih.2]
        cases ts with
        | nil => simp
        | cons b ts2 =>
          simp only [List.getLast?_cons_cons, List.length_cons]
          congr 2
          omega
  · intro s c ts h
    induction ts with
    | nil => rfl
    | cons t ts ih =>
      simp only [resolveRun, go, h, List.map_cons]
      rw [show resolveRun s c ts = (ts.map (fun _ => GoResult.notFound), s) from ih]

/-- C6 witness: two resolves on a one-record store both redirect to the
stored URL and leave clicks at 2 with last_accessed from the second
call. -/
theorem C6_witness :
    (resolveRun [⟨"c01".data, "https://e.org".data, 0, 0, none⟩] "c01".data
      [1, 2]).1 =
      [1, 2].map (fun _ => GoResult.redirectTo "https://e.org".data) ∧
    lookupStore (resolveRun [⟨"c01".data, "https://e.org".data, 0, 0, none⟩]
      "c01".data [1, 2]).2 "c01".data =
      some ⟨"c01".data, "https://e.org".data, 0, 0 + 2, some 2⟩ :=
  C6_resolve_repeat.1 [⟨"c01".data, "https://e.org".data, 0, 0, none⟩]
    "c01".data ⟨"c01".data, "https://e.org".data, 0, 0, none⟩ [1, 2] (by decide)

/-- Admission is equivalent to fewer than the burst bound of timestamps
surviving the prune. -/
lemma rate_limited_admitted_iff (m : RateMap) (key : List Char) (now : ℤ) :
    (rate_limited m key now).1 = false ↔
      ((m key).filter (fun t => now - RATE_LIMIT_WINDOW < t)).length <
        RATE_LIMIT_BURST := by
  simp [rate_limited]

/-- The bucket stored back for the key: the pruned list, with the
current time appended exactly on admission. -/
lemma rate_limited_bucket (m : RateMap) (key : List Char) (now : ℤ) :
    (rate_limited m key now).2 key =
      (if ((m key).filter (fun t => now - RATE_LIMIT_WINDOW < t)).length <
          RATE_LIMIT_BURST then
        ((m key).filter (fun t => now - RATE_LIMIT_WINDOW < t)) ++ [now]
      else (m key).filter (fun t => now - RATE_LIMIT_WINDOW < t)) := by
  by_cases hlt : ((m key).filter (fun t => now - RATE_LIMIT_WINDOW < t)).length <
      RATE_LIMIT_BURST
  · rw [if_pos hlt]
    simp [rate_limited, updateMap, hlt]
  · rw [if_neg hlt]
    simp [rate_limited, updateMap, hlt]

/-- Buckets of other keys are untouched. -/
lemma rate_limited_other (m : RateMap) (key : List Char) (now : ℤ)
    (k : List Char) (h : k ≠ key) : (rate_limited m key now).2 k = m k := by
  simp [rate_limited, updateMap, h]

/-- C5 (confirmed): each admission check prunes the timestamps outside
the trailing 60-second window, admits exactly when fewer than 10 remain,
appends the current timestamp only on admission and leaves other keys
alone; concretely, from an empty state ten calls in one window are
admitted, the eleventh inside the window is denied, and a call after the
window has elapsed is admitted again. -/
theorem C5_rate_limiter :
    (∀ (m : RateMap) (key : List Char) (now : ℤ),
      ((rate_limited m key now).1 = false ↔
        ((m key).filter (fun t => now - RATE_LIMIT_WINDOW < t)).length <
          RATE_LIMIT_BURST) ∧
      ((rate_limited m key now).2 key =
        (if ((m key).filter (fun t => now - RATE_LIMIT_WINDOW < t)).length <
            RATE_LIMIT_BURST then
          ((m key).filter (fun t => now - RATE_LIMIT_WINDOW < t)) ++ [now]
        else (m key).filter (fun t => now - RATE_LIMIT_WINDOW < t))) ∧
      (∀ k, k ≠ key → (rate_limited m key now).2 k = m k)) ∧
    ((admitRun "create:c".data (fun _ => [])
        ([0, 1, 2, 3, 4, 5, 6, 7, 8, 9, 10] : List ℤ)).1 =
      [false, false, false, false, false, false, false, false, false, false,
        true]) ∧
    ((rate_limited
        (admitRun "create:c".data (fun _ => [])
          ([0, 1, 2, 3, 4, 5, 6, 7, 8, 9, 10] : List ℤ)).2
        "create:c".data 70).1 = false) := by
  refine ⟨fun m key now => ⟨rate_limited_admitted_iff m key now,
    rate_limited_bucket m key now, fun k hk => rate_limited_other m key now k hk⟩,
    by decide, by decide⟩

/-- C5 witness: the characterization applied at a concrete state. -/
theorem C5_witness :
    (rate_limited (fun _ => ([] : List ℤ)) "create:w".data 0).1 = false :=
  (C5_rate_limiter.1 (fun _ => []) "create:w".data 0).1.mpr (by decide)

/-- C10 (confirmed): create consults the rate limiter before anything
else: the stored bucket update is exactly the rate limiter output
whatever happens later; the timestamp recorded for an admitted call raises the
in-window count of the key of the caller by one even when URL validation then
fails and persists nothing; and a denied call answers 429 untouched by
validation. -/
theorem C10_rate_check_first :
    (∀ (st : AppState) (ip rawUrl rawCustom : List Char) (now : ℤ)
      (r : Nat → List Char),
      (create st ip rawUrl rawCustom now r).2.rateMap =
        (rate_limited st.rateMap (createKey ip) now).2) ∧
    (∀ (st : AppState) (ip rawUrl rawCustom : List Char) (now : ℤ)
      (r : Nat → List Char),
      (rate_limited st.rateMap (createKey ip) now).1 = false →
        (((create st ip rawUrl rawCustom now r).2.rateMap (createKey ip)).countP
            (fun t => now - RATE_LIMIT_WINDOW < t)) =
          ((st.rateMap (createKey ip)).countP
            (fun t => now - RATE_LIMIT_WINDOW < t)) + 1) ∧
    (∀ (st : AppState) (ip rawUrl rawCustom : List Char) (now : ℤ)
      (r : Nat → List Char),
      (rate_limited st.rateMap (createKey ip) now).1 = true →
        (create st ip rawUrl rawCustom now r).1 = CreateResult.tooMany ∧
        (create st ip rawUrl rawCustom now r).2.store = st.store) ∧
    (∀ (st : AppState) (ip rawUrl rawCustom : List Char) (now : ℤ)
      (r : Nat → List Char) (e : NormErr),
      (rate_limited st.rateMap (createKey ip) now).1 = false →
        normalize_url rawUrl = Except.error e →
        (create st ip rawUrl rawCustom now r).1 = CreateResult.errResp (errMsg e) ∧
        (create st ip rawUrl rawCustom now r).2.store = st.store) := by
  refine ⟨?_, ?_, ?_, ?_⟩
  · intro st ip rawUrl rawCustom now r
    exact create_rateMap st ip rawUrl rawCustom now r
  · intro st ip rawUrl rawCustom now r hadm
    rw [create_rateMap, rate_limited_bucket]
    rw [if_pos ((rate_limited_admitted_iff st.rateMap (createKey ip) now).mp hadm)]
    rw [List.countP_append]
    have hfil : ((st.rateMap (createKey ip)).filter
        (fun t => now - RATE_LIMIT_WINDOW < t)).countP
          (fun t => now - RATE_LIMIT_WINDOW < t) =
        (st.rateMap (createKey ip)).countP (fun t => now - RATE_LIMIT_WINDOW < t) := by
      induction st.rateMap (createKey ip) with
      | nil => rfl
      | cons a l ih =>
        by_cases ha : now - RATE_LIMIT_WINDOW < a
        · simp [List.countP_cons, ha, ih]
        · simp [List.countP_cons, ha, ih]
    rw [hfil]
    have hnow : decide (now - RATE_LIMIT_WINDOW < now) = true := by
      have hw : RATE_LIMIT_WINDOW = (60 : ℤ) := rfl
      simp only [decide_eq_true_eq]
      omega
    simp [List.countP_cons, hnow]
    decide
  · intro st ip rawUrl rawCustom now r hden
    rw [create_denied hden]
    exact ⟨rfl, rfl⟩
  · intro st ip rawUrl rawCustom now r e hadm hurl
    rw [create_admitted hadm,
      createValidated_err ⟨st.store, (rate_limited st.rateMap (createKey ip) now).2⟩
        hurl]
    exact ⟨rfl, rfl⟩

/-- C10 witness: an admitted request that fails URL validation still
records the timestamp (count rises to one) and persists nothing. -/
theorem C10_witness :
    (create ⟨[], fun _ => []⟩ "5.5.5.5".data "ftp://a.io".data [] 0
      (fun _ => "zzzzzz".data)).1 =
      CreateResult.errResp (errMsg NormErr.unsupportedScheme) ∧
    (create ⟨[], fun _ => []⟩ "5.5.5.5".data "ftp://a.io".data [] 0
      (fun _ => "zzzzzz".data)).2.store = [] :=
  (C10_rate_check_first.2.2.2 ⟨[], fun _ => []⟩ "5.5.5.5".data
    "ftp://a.io".data [] 0 (fun _ => "zzzzzz".data) NormErr.unsupportedScheme
    (by decide) (by decide))

/-- The codes column of the table. -/
def storeCodes (s : Store) : List (List Char) := s.map LinkRecord.code

/-- The click increment never changes any code. -/
lemma storeCodes_increment (s : Store) (c : List Char) (now : ℤ) :
    storeCodes (incrementClicks s c now) = storeCodes s := by
  induction s with
  | nil => rfl
  | cons a l ih =>
    simp only [incrementClicks, storeCodes, List.map_cons] at *
    by_cases hc : a.code = c
    · rw [if_pos hc]
      rw [ih]
    · rw [if_neg hc]
      rw [ih]

/-- A code reported absent is not among the stored codes. -/
lemma dbExists_false_not_mem {s : Store} {c : List Char}
    (h : dbExists s c = false) : c ∉ storeCodes s := by
  intro hmem
  obtain ⟨r, hr, hrc⟩ := List.mem_map.mp hmem
  simp only [dbExists, List.any_eq_false, decide_eq_true_eq] at h
  exact h r hr hrc

/-- The store after createValidated is unchanged or extends by one row
whose code was previously absent. -/
lemma createValidated_store_cases (st : AppState) (rawUrl custom : List Char)
    (now : ℤ) (r : Nat → List Char) :
    (createValidated st rawUrl custom now r).2.store = st.store ∨
    ∃ c u, dbExists st.store c = false ∧
      (createValidated st rawUrl custom now r).2.store =
        List.append st.store [⟨c, u, now, 0, none⟩] := by
  simp only [createValidated]
  split
  · left; rfl
  · rename_i w hw
    split
    · split
      · split
        · left; rfl
        · rename_i s2 hins
          obtain ⟨hex, hs2⟩ := dbInsert_some hins
          right
          exact ⟨custom, w, hex, by rw [hs2]⟩
      · left; rfl
    · split
      · left; rfl
      · rename_i s2 hins
        obtain ⟨hex, hs2⟩ := dbInsert_some hins
        right
        exact ⟨genCode st.store r, w, hex, by rw [hs2]⟩

/-- The store after create is unchanged or extends by one row whose code
was previously absent. -/
lemma create_store_cases (st : AppState) (ip rawUrl rawCustom : List Char)
    (now : ℤ) (r : Nat → List Char) :
    (create st ip rawUrl rawCustom now r).2.store = st.store ∨
    ∃ c u, dbExists st.store c = false ∧
      (create st ip rawUrl rawCustom now r).2.store =
        List.append st.store [⟨c, u, now, 0, none⟩] := by
  cases hl : (rate_limited st.rateMap (createKey ip) now).1 with
  | true =>
    rw [create_denied hl]
    left; rfl
  | false =>
    rw [create_admitted hl]
    exact createValidated_store_cases
      ⟨st.store, (rate_limited st.rateMap (createKey ip) now).2⟩
      rawUrl (pyStrip rawCustom) now r

/-- The store after go is either untouched or click-incremented. -/
lemma go_store_cases (s : Store) (c : List Char) (now : ℤ) (f : Bool) :
    (go s c now f).2 = s ∨ (go s c now f).2 = incrementClicks s c now := by
  unfold go
  split
  · left; rfl
  · split
    · left; rfl
    · right; rfl

/-- Every request preserves distinctness of the stored codes. -/
lemma applyOp_nodup {st : AppState} (h : (storeCodes st.store).Nodup) (op : Op) :
    (storeCodes (applyOp st op).store).Nodup := by
  cases op with
  | shortenOp ip u cu t r =>
    show (storeCodes (create st ip u cu t r).2.store).Nodup
    rcases create_store_cases st ip u cu t r with hs | ⟨c, u2, hex, hs⟩
    · rw [hs]; exact h
    · rw [hs]
      have hnm := dbExists_false_not_mem hex
      simp only [storeCodes, List.append_eq, List.map_append, List.map_cons,
        List.map_nil] at *
      rw [List.nodup_append]
      refine ⟨h, List.nodup_singleton c, ?_⟩
      intro a ha hb
      simp only [List.mem_singleton] at hb
      exact hnm (hb ▸ ha)
  | resolveOp c t f =>
    show (storeCodes (go st.store c t f).2).Nodup
    rcases go_store_cases st.store c t f with hs | hs
    · rw [hs]; exact h
    · rw [hs, storeCodes_increment]; exact h

/-- Folding any request sequence preserves distinct codes. -/
lemma runOps_nodup_from : ∀ (ops : List Op) (st : AppState),
    (storeCodes st.store).Nodup →
    (storeCodes (ops.foldl applyOp st).store).Nodup := by
  intro ops
  induction ops with
  | nil => intro st h; exact h
  | cons op ops ih =>
    intro st h
    exact ih (applyOp st op) (applyOp_nodup h op)

/-- C8 (confirmed): the insert is an atomic create-if-absent — it fails
(IntegrityError, the DuplicateKey signal) exactly when the code is
already present, and a success appends one fresh row — so from the empty
table every sequence of shorten and resolve requests leaves the stored
codes pairwise distinct. -/
theorem C8_insert_unique :
    (∀ (s : Store) (c u : List Char) (t : ℤ),
      dbInsert s c u t = none ↔ dbExists s c = true) ∧
    (∀ (s : Store) (c u : List Char) (t : ℤ) (s2 : Store),
      dbInsert s c u t = some s2 →
        dbExists s c = false ∧ s2 = List.append s [⟨c, u, t, 0, none⟩]) ∧
    (∀ ops : List Op, (storeCodes (runOps ops).store).Nodup) := by
  refine ⟨fun s c u t => dbInsert_none_iff,
    fun s c u t s2 h => dbInsert_some h,
    fun ops => runOps_nodup_from ops initState List.nodup_nil⟩

/-- C8 witness: the insert characterization applied to a concrete
successful insert. -/
theorem C8_witness :
    dbExists ([] : Store) "abc".data = false ∧
    (List.append ([] : Store) [⟨"abc".data, "https://x.io".data, 0, 0, none⟩]) =
      List.append ([] : Store) [⟨"abc".data, "https://x.io".data, 0, 0, none⟩] :=
  C8_insert_unique.2.1 [] "abc".data "https://x.io".data 0
    (List.append [] [⟨"abc".data, "https://x.io".data, 0, 0, none⟩]) (by decide)

end UrlApp
